import Mathlib

/-!
Shallow embedding of `matsubara/correlation.py`: bath correlation functions
and spectral densities for the underdamped Brownian motion model, plus the
bi-exponential fitter.  Python floats are modelled by real numbers, complex
numpy values by `ℂ`; the sentinel `np.inf` for the inverse temperature is
modelled by `EReal` in the one function that branches on it.
-/

namespace Correlation

noncomputable section

open Complex

/-- Source helper `coth(x) = 1/np.tanh(x)`, on complex arguments. -/
def coth (x : ℂ) : ℂ := 1 / Complex.tanh x

/-- Source function `nonmatsubara_exponents(coup_strength, cav_broad, cav_freq, beta)` from the
source: `omega = sqrt(w0^2 - (gamma/2)^2)`, `a = omega + i*gamma/2`,
`aa = conj(a)`, `coeff = lam^2/(4*omega)`, `vk = [i*a, -i*aa]`, and
`ck = [0, 2]` when `beta == inf`, else
`ck = [coth(beta*(a/2)) - 1, coth(beta*(aa/2)) + 1]`; returns `(coeff*ck, vk)`.
The pair of length-2 numpy arrays is modelled by pairs. -/
def nonmatsubara_exponents (coup_strength cav_broad cav_freq : ℝ)
    (beta : EReal) : (ℂ × ℂ) × (ℂ × ℂ) :=
  let w0 := cav_freq
  let lam := coup_strength
  let gamma := cav_broad
  let omega : ℝ := Real.sqrt (w0 ^ 2 - (gamma / 2) ^ 2)
  let a : ℂ := (omega : ℂ) + Complex.I * ((gamma : ℂ) / 2)
  let aa : ℂ := (starRingEnd ℂ) a
  let coeff : ℂ := ((lam : ℂ) ^ 2) / (4 * (omega : ℂ))
  let vk : ℂ × ℂ := (Complex.I * a, -Complex.I * aa)
  let ck : ℂ × ℂ :=
    if beta = ⊤ then (0, 2)
    else (coth ((beta.toReal : ℂ) * (a / 2)) - 1,
          coth ((beta.toReal : ℂ) * (aa / 2)) + 1)
  ((coeff * ck.1, coeff * ck.2), vk)

/-- Source function `sum_of_exponentials(ck, vk, tlist)` from the source: elementwise over
`tlist`, starts from `y = ck[0]*exp(vk[0]*t)` and adds
`ck[p]*exp(vk[p]*t)` for `p` in `range(1, len(ck))`.  Out-of-range numpy
indexing is modelled by `getD _ 0` (the claims assume equal lengths). -/
def sum_of_exponentials (ck vk : List ℂ) (tlist : List ℝ) : List ℂ :=
  tlist.map (fun t : ℝ =>
    (List.range' 1 (ck.length - 1)).foldl
      (fun y p => y + ck.getD p 0 * Complex.exp (vk.getD p 0 * (t : ℂ)))
      (ck.getD 0 0 * Complex.exp (vk.getD 0 0 * (t : ℂ))))

/-- Source function `matsubara_exponents(coup_strength, cav_broad, cav_freq, beta, N_exp)`
from the source: `coeff = (-4*gamma*lam^2/pi)*((pi/beta)^2)`,
`vk = [-2*pi*n/beta for n in range(1, N_exp)]`,
`ck = [n/((a^2 + (2*pi*n/beta)^2)*(aa^2 + (2*pi*n/beta)^2)) for n in range(1, N_exp)]`,
returning `(coeff*ck, vk)`. -/
def matsubara_exponents (coup_strength cav_broad cav_freq beta : ℝ)
    (N_exp : ℕ) : List ℂ × List ℝ :=
  let lam := coup_strength
  let gamma := cav_broad
  let w0 := cav_freq
  let omega : ℝ := Real.sqrt (w0 ^ 2 - (gamma / 2) ^ 2)
  let a : ℂ := (omega : ℂ) + Complex.I * ((gamma : ℂ) / 2)
  let aa : ℂ := (starRingEnd ℂ) a
  let coeff : ℂ := (((-4 * gamma * lam ^ 2 / Real.pi) * ((Real.pi / beta) ^ 2) : ℝ) : ℂ)
  let vk : List ℝ := (List.range' 1 (N_exp - 1)).map
    (fun n : ℕ => -2 * Real.pi * (n : ℝ) / beta)
  let ck : List ℂ := (List.range' 1 (N_exp - 1)).map
    (fun n : ℕ => (n : ℂ) / ((a ^ 2 + ((2 * Real.pi * (n : ℝ) / beta : ℝ) : ℂ) ^ 2)
        * (aa ^ 2 + ((2 * Real.pi * (n : ℝ) / beta : ℝ) : ℂ) ^ 2)))
  (ck.map (fun z => coeff * z), vk)

/-- The Matsubara rate of index `n` as the spec states it: `-ν_n` with
`ν_n = 2*pi*n/beta`.  Written from the spec's words. -/
def matsubaraSpec_vk (beta : ℝ) (n : ℕ) : ℝ := -(2 * Real.pi * n / beta)

/-- The Matsubara coefficient of index `n` as the spec states it:
`coeff*n/((a^2 + ν_n^2)*(aa^2 + ν_n^2))` with `ν_n = 2*pi*n/beta` and
`coeff = (-4*gamma*lam^2/pi)*(pi/beta)^2`.  Written from the spec's words. -/
def matsubaraSpec_ck (lam gamma w0 beta : ℝ) (n : ℕ) : ℂ :=
  let omega : ℝ := Real.sqrt (w0 ^ 2 - (gamma / 2) ^ 2)
  let a : ℂ := (omega : ℂ) + Complex.I * ((gamma : ℂ) / 2)
  let aa : ℂ := (starRingEnd ℂ) a
  let nu : ℝ := 2 * Real.pi * n / beta
  let coeff : ℂ := (((-4 * gamma * lam ^ 2 / Real.pi) * ((Real.pi / beta) ^ 2) : ℝ) : ℂ)
  coeff * ((n : ℂ) / ((a ^ 2 + (nu : ℂ) ^ 2) * (aa ^ 2 + (nu : ℂ) ^ 2)))

/-- Model of `np.min` over a 1-D array, modelled on lists (numpy raises on an empty
array; the value at `[]` is irrelevant to the claims). -/
def npmin : List ℝ → ℝ
  | [] => 0
  | [x] => x
  | x :: y :: xs => min x (npmin (y :: xs))

/-- The type of the external bounded nonlinear least-squares capability
(`scipy.optimize.least_squares`): it receives the residual function, the
initial vector `x0`, the box bounds (lower and upper, with `⊥`/`⊤` modelling
`-np.inf`/`np.inf`), the loss name, and the data arguments `(tlist, data)`,
and returns the fitted parameter vector `[c1, v1, c2, v2]`. -/
def LeastSquaresSolver : Type :=
  ((ℝ × ℝ × ℝ × ℝ) → ℝ → ℝ → ℝ) → (ℝ × ℝ × ℝ × ℝ) →
    (List EReal × List EReal) → String → (List ℝ × List ℝ) → ℝ × ℝ × ℝ × ℝ

/-- The default `bounds` argument of `biexp_fit` from the source:
`([0, -np.inf, 0, -np.inf], [np.inf, 0, np.inf, 0])`. -/
def biexp_fit_default_bounds : List EReal × List EReal :=
  ([0, ⊥, 0, ⊥], [⊤, 0, ⊤, 0])

/-- Source function `biexp_fit(tlist, ydata, ck_guess, vk_guess, bounds, method, loss)` from
the source, parametric in the external `least_squares` capability:
`mats_min = np.min(ydata)`, `data = ydata/mats_min`,
`fun = (x[0]*exp(x[1]*t) + x[2]*exp(x[3]*t) - y)^2`, `x0 = [0.5, -1, 0.5, -1]`,
`params = least_squares(fun, x0, bounds=bounds, loss=loss, args=(tlist, data))`,
`c1, v1, c2, v2 = params.x`, returning `(mats_min*[c1, c2], [v1, v2])`.
As in the source, `ck_guess`, `vk_guess` and `method` are accepted but never
used (the source never forwards `method` to the solver). -/
def biexp_fit (least_squares : LeastSquaresSolver) (tlist ydata : List ℝ)
    (ck_guess vk_guess : List ℝ) (bounds : List EReal × List EReal)
    (method loss : String) : (ℝ × ℝ) × (ℝ × ℝ) :=
  let mats_min := npmin ydata
  let data := ydata.map (fun y : ℝ => y / mats_min)
  let f := fun (x : ℝ × ℝ × ℝ × ℝ) (t y : ℝ) =>
    (x.1 * Real.exp (x.2.1 * t) + x.2.2.1 * Real.exp (x.2.2.2 * t) - y) ^ 2
  let x0 : ℝ × ℝ × ℝ × ℝ := (0.5, -1, 0.5, -1)
  let params := least_squares f x0 bounds loss (tlist, data)
  ((mats_min * params.1, mats_min * params.2.2.1), (params.2.1, params.2.2.2))

/-- A Python value passed as the `spectral_density` argument of
`bath_correlation`: either a callable `J(w, *params)` or some non-callable
object (carrying only its textual description). -/
inductive PyObj : Type
  | callable (f : ℝ → List ℝ → ℂ)
  | notCallable (descr : String)

/-- The type of the external 1-D numerical integration capability
(`scipy.integrate.quad`): integrand, lower limit, upper limit, extra
time argument, returning the value of the integral. -/
def QuadIntegrator : Type := (ℝ → ℝ → ℝ) → ℝ → ℝ → ℝ → ℝ

/-- Source function `bath_correlation(spectral_density, tlist, params, beta, w_cut)` from the
source, parametric in the external `quad` capability: raises `TypeError` when
`spectral_density` is not callable; otherwise, with
`coth = 1/np.tanh`, integrates `Re(J(w,*params)*coth(beta*(w/2))*cos(w*t))`
and `Re(-J(w,*params)*sin(w*t))` from `w_start = 0` to `w_cut` for each `t`
in `tlist` and returns `(corrR + i*corrI)/pi`. -/
def bath_correlation (quad : QuadIntegrator) (spectral_density : PyObj)
    (tlist : List ℝ) (params : List ℝ) (beta : ℝ) (w_cut : ℝ) :
    Except String (List ℂ) :=
  match spectral_density with
  | .notCallable _ =>
      Except.error "TypeError: Spectral density should be a callable function f(w, args)"
  | .callable J =>
    let cothR := fun x : ℝ => 1 / Real.tanh x
    let w_start : ℝ := 0
    let integrandR := fun (w t : ℝ) =>
      (J w params * ((cothR (beta * (w / 2)) : ℝ) : ℂ)
        * ((Real.cos (w * t) : ℝ) : ℂ)).re
    let integrandI := fun (w t : ℝ) =>
      (-(J w params) * ((Real.sin (w * t) : ℝ) : ℂ)).re
    let corrR := tlist.map (fun t : ℝ => quad integrandR w_start w_cut t)
    let corrI := tlist.map (fun t : ℝ => quad integrandI w_start w_cut t)
    Except.ok (List.zipWith
      (fun r i : ℝ => (((r : ℝ) : ℂ) + Complex.I * ((i : ℝ) : ℂ)) / ((Real.pi : ℝ) : ℂ))
      corrR corrI)

/-- Source function `underdamped_brownian(w, coup_strength, cav_broad, cav_freq)` from the
source: `prefactor = lam^2*gamma` and
`spectral_density = prefactor*(w/((w-a)*(w+a)*(w-aa)*(w+aa)))` with the same
pole pair `a`, `aa` as above. -/
def underdamped_brownian (w coup_strength cav_broad cav_freq : ℝ) : ℂ :=
  let w0 := cav_freq
  let lam := coup_strength
  let gamma := cav_broad
  let omega : ℝ := Real.sqrt (w0 ^ 2 - (gamma / 2) ^ 2)
  let a : ℂ := (omega : ℂ) + Complex.I * ((gamma : ℂ) / 2)
  let aa : ℂ := (starRingEnd ℂ) a
  let prefactor : ℂ := ((lam : ℂ) ^ 2) * (gamma : ℂ)
  prefactor * ((w : ℂ) / (((w : ℂ) - a) * ((w : ℂ) + a) * ((w : ℂ) - aa) * ((w : ℂ) + aa)))

/-- Source function `_S(w, coup_strength, cav_broad, cav_freq, beta)` from the source, the
symmetric part of the spectrum:
`prefactor = -(lam^2)*gamma/(a^2 - aa^2)`,
`t1 = coth(beta*(a/2))*(a/(a^2 - w^2))`, `t2 = coth(beta*(aa/2))*(aa/(aa^2 - w^2))`,
returning `prefactor*(t1 - t2)`. -/
def _S (w coup_strength cav_broad cav_freq beta : ℝ) : ℂ :=
  let lam := coup_strength
  let gamma := cav_broad
  let w0 := cav_freq
  let omega : ℝ := Real.sqrt (w0 ^ 2 - (gamma / 2) ^ 2)
  let a : ℂ := (omega : ℂ) + Complex.I * ((gamma : ℂ) / 2)
  let aa : ℂ := (starRingEnd ℂ) a
  let prefactor : ℂ := -((lam : ℂ) ^ 2) * (gamma : ℂ) / (a ^ 2 - aa ^ 2)
  let t1 : ℂ := coth ((beta : ℂ) * (a / 2)) * (a / (a ^ 2 - (w : ℂ) ^ 2))
  let t2 : ℂ := coth ((beta : ℂ) * (aa / 2)) * (aa / (aa ^ 2 - (w : ℂ) ^ 2))
  prefactor * (t1 - t2)

/-- Source function `_A(w, coup_strength, cav_broad, cav_freq, beta)` from the source, the
anti-symmetric part of the spectrum: `prefactor = (lam^2)*gamma`,
`t1 = w/((a^2 - w^2)*(aa^2 - w^2))`, returning `prefactor*t1`.
(`beta` is accepted but unused, as in the source.) -/
def _A (w coup_strength cav_broad cav_freq beta : ℝ) : ℂ :=
  let lam := coup_strength
  let gamma := cav_broad
  let w0 := cav_freq
  let omega : ℝ := Real.sqrt (w0 ^ 2 - (gamma / 2) ^ 2)
  let a : ℂ := (omega : ℂ) + Complex.I * ((gamma : ℂ) / 2)
  let aa : ℂ := (starRingEnd ℂ) a
  let prefactor : ℂ := ((lam : ℂ) ^ 2) * (gamma : ℂ)
  let t1 : ℂ := (w : ℂ) / ((a ^ 2 - (w : ℂ) ^ 2) * (aa ^ 2 - (w : ℂ) ^ 2))
  prefactor * t1

/-- Source function `spectrum_matsubara(w, ...)` from the source:
`-_S(w, ...) + _A(w, ...)*coth(beta*w/2)`. -/
def spectrum_matsubara (w coup_strength cav_broad cav_freq beta : ℝ) : ℂ :=
  -_S w coup_strength cav_broad cav_freq beta
    + _A w coup_strength cav_broad cav_freq beta * coth ((beta : ℂ) * (w : ℂ) / 2)

/-- Source function `spectrum_non_matsubara(w, ...)` from the source:
`_S(w, ...) + _A(w, ...)`. -/
def spectrum_non_matsubara (w coup_strength cav_broad cav_freq beta : ℝ) : ℂ :=
  _S w coup_strength cav_broad cav_freq beta
    + _A w coup_strength cav_broad cav_freq beta

/-- Source function `spectrum(w, ...)` from the source:
`spectrum_matsubara(w, ...) + spectrum_non_matsubara(w, ...)`. -/
def spectrum (w coup_strength cav_broad cav_freq beta : ℝ) : ℂ :=
  spectrum_matsubara w coup_strength cav_broad cav_freq beta
    + spectrum_non_matsubara w coup_strength cav_broad cav_freq beta

/-- The non-Matsubara exponents as the spec states them for finite `beta`:
`ck = coeff*[coth(beta*a/2) - 1, coth(beta*aa/2) + 1]`, `vk = [i*a, -i*aa]`,
with `omega = sqrt(omega0^2 - (gamma/2)^2)`, `a = omega + i*gamma/2`,
`aa = conj(a)`, `coeff = lam^2/(4*omega)`.  Written from the spec's words,
to be compared with the definition taken from the source. -/
def nonmatsubaraSpecFinite (lam gamma w0 b : ℝ) : (ℂ × ℂ) × (ℂ × ℂ) :=
  let omega : ℝ := Real.sqrt (w0 ^ 2 - (gamma / 2) ^ 2)
  let a : ℂ := (omega : ℂ) + Complex.I * ((gamma : ℂ) / 2)
  let aa : ℂ := (starRingEnd ℂ) a
  let coeff : ℂ := ((lam : ℂ) ^ 2) / (4 * (omega : ℂ))
  ((coeff * (coth ((b : ℂ) * a / 2) - 1), coeff * (coth ((b : ℂ) * aa / 2) + 1)),
   (Complex.I * a, -Complex.I * aa))

/-- The non-Matsubara exponents as the spec states them at `beta = ∞`:
exactly `ck = coeff*[0, 2]` and `vk = [i*a, -i*aa]`. -/
def nonmatsubaraSpecZeroT (lam gamma w0 : ℝ) : (ℂ × ℂ) × (ℂ × ℂ) :=
  let omega : ℝ := Real.sqrt (w0 ^ 2 - (gamma / 2) ^ 2)
  let a : ℂ := (omega : ℂ) + Complex.I * ((gamma : ℂ) / 2)
  let aa : ℂ := (starRingEnd ℂ) a
  let coeff : ℂ := ((lam : ℂ) ^ 2) / (4 * (omega : ℂ))
  ((coeff * 0, coeff * 2), (Complex.I * a, -Complex.I * aa))

end

/-- C1: for every finite `beta = b > 0` and parameters with `omega0 ≥ gamma/2`,
`nonmatsubara_exponents` returns exactly the spec's
`ck = coeff*[coth(b*a/2) - 1, coth(b*aa/2) + 1]`, `vk = [i*a, -i*aa]` with
`omega = sqrt(omega0^2 - (gamma/2)^2)`, `a = omega + i*gamma/2`, `aa = conj a`,
`coeff = lam^2/(4*omega)`. -/
theorem nonmatsubara_exponents_finite_beta (lam gamma w0 b : ℝ)
    (hb : 0 < b) (hw : gamma / 2 ≤ w0) :
    nonmatsubara_exponents lam gamma w0 (b : EReal) =
      nonmatsubaraSpecFinite lam gamma w0 b := by
  have htop : (b : EReal) ≠ ⊤ := EReal.coe_ne_top b
  simp only [nonmatsubara_exponents, nonmatsubaraSpecFinite, if_neg htop,
    EReal.toReal_coe]
  ring_nf

/-- Witness for C1 at `lam = 1`, `gamma = 1`, `w0 = 1`, `b = 1`. -/
theorem nonmatsubara_exponents_finite_beta_witness :
    nonmatsubara_exponents 1 1 1 ((1 : ℝ) : EReal) =
      nonmatsubaraSpecFinite 1 1 1 1 :=
  nonmatsubara_exponents_finite_beta 1 1 1 1 (by norm_num) (by norm_num)

/-- C3: at `beta = ∞` (the `EReal` top element, modelling `np.inf`),
`nonmatsubara_exponents` takes the explicit branch bypassing `coth` and
returns exactly `ck = coeff*[0, 2]` and `vk = [i*a, -i*aa]`. -/
theorem nonmatsubara_exponents_zero_temperature (lam gamma w0 : ℝ)
    (hw : gamma / 2 ≤ w0) :
    nonmatsubara_exponents lam gamma w0 ⊤ =
      nonmatsubaraSpecZeroT lam gamma w0 := by
  simp [nonmatsubara_exponents, nonmatsubaraSpecZeroT]

/-- Witness for C3 at `lam = 1`, `gamma = 1`, `w0 = 2`. -/
theorem nonmatsubara_exponents_zero_temperature_witness :
    nonmatsubara_exponents 1 1 2 ⊤ = nonmatsubaraSpecZeroT 1 1 2 :=
  nonmatsubara_exponents_zero_temperature 1 1 2 (by norm_num)

/-- C4: for every real `w` and parameters with finite `beta > 0`,
`spectrum` equals `spectrum_matsubara + spectrum_non_matsubara` exactly, the
`_S` contributions cancel, and the total equals `_A*(1 + coth(beta*w/2))`. -/
theorem spectrum_split (w lam gamma w0 beta : ℝ) (hb : 0 < beta) :
    spectrum w lam gamma w0 beta =
        spectrum_matsubara w lam gamma w0 beta
          + spectrum_non_matsubara w lam gamma w0 beta ∧
      spectrum w lam gamma w0 beta =
        _A w lam gamma w0 beta * (1 + coth ((beta : ℂ) * (w : ℂ) / 2)) := by
  refine ⟨rfl, ?_⟩
  simp only [spectrum, spectrum_matsubara, spectrum_non_matsubara]
  ring

/-- Witness for C4 at `w = 1`, `lam = 1`, `gamma = 1`, `w0 = 1`, `beta = 1`. -/
theorem spectrum_split_witness :
    spectrum 1 1 1 1 1 =
        spectrum_matsubara 1 1 1 1 1 + spectrum_non_matsubara 1 1 1 1 1 ∧
      spectrum 1 1 1 1 1 =
        _A 1 1 1 1 1 * (1 + coth (((1 : ℝ) : ℂ) * ((1 : ℝ) : ℂ) / 2)) :=
  spectrum_split 1 1 1 1 1 (by norm_num)

/-- C5: for every real `w` and valid parameters (`lam > 0`, `gamma > 0`,
`w0 ≥ gamma/2`), `underdamped_brownian w lam gamma w0` is real-valued: its
imaginary part is zero in exact arithmetic. -/
theorem underdamped_brownian_real (w lam gamma w0 : ℝ)
    (hl : 0 < lam) (hg : 0 < gamma) (hw : gamma / 2 ≤ w0) :
    (underdamped_brownian w lam gamma w0).im = 0 := by
  rw [← Complex.conj_eq_iff_im]
  simp only [underdamped_brownian, map_mul, map_div₀, map_sub, map_add,
    map_pow, Complex.conj_conj, Complex.conj_ofReal]
  ring

/-- Witness for C5 at `w = 2`, `lam = 1`, `gamma = 1`, `w0 = 1`. -/
theorem underdamped_brownian_real_witness :
    (underdamped_brownian 2 1 1 1).im = 0 :=
  underdamped_brownian_real 2 1 1 1 (by norm_num) (by norm_num) (by norm_num)

/-- Helper: a left fold that only accumulates by addition is the starting
value plus the list sum. -/
theorem foldl_add_eq_sum (g : ℕ → ℂ) (l : List ℕ) (z : ℂ) :
    l.foldl (fun y p => y + g p) z = z + (l.map g).sum := by
  induction l generalizing z with
  | nil => simp
  | cons a t ih => simp [ih (z + g a), add_assoc]

/-- Helper: reading a mapped `range'` list at an in-range index. -/
theorem getD_map_range' {α : Type} [Inhabited α] (f : ℕ → α) (k i : ℕ)
    (hi : i < k) (d : α) :
    ((List.range' 1 k).map f).getD i d = f (1 + i) := by
  have hl : i < ((List.range' 1 k).map f).length := by
    simpa using hi
  rw [List.getD_eq_getElem?_getD, List.getElem?_eq_getElem hl,
    Option.getD_some, List.getElem_map, List.getElem_range']
  simp

/-- Helper: mapping `getD` over the index range recovers the list. -/
theorem map_getD_range (l : List ℂ) :
    (List.range l.length).map (fun i => l.getD i 0) = l := by
  apply List.ext_getElem (by simp)
  intro i h1 h2
  rw [List.getElem_map, List.getElem_range, List.getD_eq_getElem?_getD,
    List.getElem?_eq_getElem h2, Option.getD_some]

/-- C2: for `N_exp ≥ 1` and finite `beta > 0`, `matsubara_exponents` returns
two arrays of length exactly `N_exp - 1`, whose entries at position `n - 1`
(for `n = 1 .. N_exp - 1`) are `vk[n] = -ν_n` and
`ck[n] = coeff*n/((a^2 + ν_n^2)*(aa^2 + ν_n^2))` with `ν_n = 2*pi*n/beta` and
`coeff = (-4*gamma*lam^2/pi)*(pi/beta)^2`. -/
theorem matsubara_exponents_spec (lam gamma w0 beta : ℝ) (N_exp : ℕ)
    (hN : 1 ≤ N_exp) (hb : 0 < beta) :
    (matsubara_exponents lam gamma w0 beta N_exp).1.length = N_exp - 1 ∧
      (matsubara_exponents lam gamma w0 beta N_exp).2.length = N_exp - 1 ∧
      ∀ n, 1 ≤ n → n < N_exp →
        (matsubara_exponents lam gamma w0 beta N_exp).2.getD (n - 1) 0 =
            matsubaraSpec_vk beta n ∧
          (matsubara_exponents lam gamma w0 beta N_exp).1.getD (n - 1) 0 =
            matsubaraSpec_ck lam gamma w0 beta n := by
  simp only [matsubara_exponents, List.map_map]
  refine ⟨by simp, by simp, ?_⟩
  intro n h1 h2
  have hlt : n - 1 < N_exp - 1 := by omega
  have hn : 1 + (n - 1) = n := by omega
  constructor
  · rw [getD_map_range' _ _ _ hlt, hn, matsubaraSpec_vk]
    ring
  · rw [getD_map_range' _ _ _ hlt, hn]
    simp only [matsubaraSpec_ck, Function.comp]

/-- Witness for C2 at `lam = 1`, `gamma = 1`, `w0 = 1`, `beta = 1`,
`N_exp = 2`. -/
theorem matsubara_exponents_spec_witness :
    (matsubara_exponents 1 1 1 1 2).1.length = 2 - 1 ∧
      (matsubara_exponents 1 1 1 1 2).2.length = 2 - 1 ∧
      ∀ n, 1 ≤ n → n < 2 →
        (matsubara_exponents 1 1 1 1 2).2.getD (n - 1) 0 =
            matsubaraSpec_vk 1 n ∧
          (matsubara_exponents 1 1 1 1 2).1.getD (n - 1) 0 =
            matsubaraSpec_ck 1 1 1 1 n :=
  matsubara_exponents_spec 1 1 1 1 2 (by norm_num) (by norm_num)

/-- C9: for equal-length `ck`, `vk` with `N = len ck ≥ 1` and any `tlist` of
length `M`, `sum_of_exponentials` returns an `M`-length array whose entry at
time `t` is `Σ_{i=0..N-1} ck[i]*exp(vk[i]*t)`; in particular at
`tlist = [0]` it returns `[sum ck]` exactly. -/
theorem sum_of_exponentials_spec (ck vk : List ℂ) (tlist : List ℝ)
    (hlen : ck.length = vk.length) (hN : 1 ≤ ck.length) :
    (sum_of_exponentials ck vk tlist).length = tlist.length ∧
      (∀ j, j < tlist.length →
        (sum_of_exponentials ck vk tlist).getD j 0 =
          ((List.range ck.length).map
            (fun i => ck.getD i 0 *
              Complex.exp (vk.getD i 0 * ((tlist.getD j 0 : ℝ) : ℂ)))).sum) ∧
      sum_of_exponentials ck vk [0] = [ck.sum] := by
  obtain ⟨k, hk⟩ : ∃ k, ck.length = k + 1 :=
    ⟨ck.length - 1, (Nat.succ_pred_eq_of_pos hN).symm⟩
  have entry : ∀ t : ℝ,
      (List.range' 1 (ck.length - 1)).foldl
          (fun y p => y + ck.getD p 0 * Complex.exp (vk.getD p 0 * (t : ℂ)))
          (ck.getD 0 0 * Complex.exp (vk.getD 0 0 * (t : ℂ))) =
        ((List.range ck.length).map
          (fun i => ck.getD i 0 * Complex.exp (vk.getD i 0 * (t : ℂ)))).sum := by
    intro t
    rw [foldl_add_eq_sum, hk, List.range_eq_range', List.range'_succ,
      List.map_cons, List.sum_cons]
    simp
  have hgd : ∀ (F : ℝ → ℂ) (j : ℕ), j < tlist.length →
      (tlist.map F).getD j 0 = F (tlist.getD j 0) := by
    intro F j hj
    have hj' : j < (tlist.map F).length := by simpa using hj
    rw [List.getD_eq_getElem?_getD, List.getElem?_eq_getElem hj',
      Option.getD_some, List.getElem_map]
    congr 1
    rw [List.getD_eq_getElem?_getD, List.getElem?_eq_getElem hj,
      Option.getD_some]
  refine ⟨by simp [sum_of_exponentials], ?_, ?_⟩
  · intro j hj
    simp only [sum_of_exponentials]
    rw [hgd _ j hj, entry]
  · simp only [sum_of_exponentials, List.map_cons, List.map_nil]
    rw [entry 0]
    congr 1
    calc ((List.range ck.length).map
          (fun i => ck.getD i 0 * Complex.exp (vk.getD i 0 * ((0 : ℝ) : ℂ)))).sum
        = ((List.range ck.length).map (fun i => ck.getD i 0)).sum := by
          simp
      _ = ck.sum := by rw [map_getD_range]

/-- Witness for C9 at `ck = [2]`, `vk = [3]`, `tlist = [1]`. -/
theorem sum_of_exponentials_spec_witness :
    (sum_of_exponentials [2] [3] [1]).length = ([1] : List ℝ).length ∧
      (∀ j, j < ([1] : List ℝ).length →
        (sum_of_exponentials [2] [3] [1]).getD j 0 =
          ((List.range ([2] : List ℂ).length).map
            (fun i => ([2] : List ℂ).getD i 0 *
              Complex.exp (([3] : List ℂ).getD i 0 *
                ((([1] : List ℝ).getD j 0 : ℝ) : ℂ)))).sum) ∧
      sum_of_exponentials [2] [3] [0] = [([2] : List ℂ).sum] :=
  sum_of_exponentials_spec [2] [3] [1] (by simp) (by simp)

/-- C6: `biexp_fit` divides `ydata` by `np.min(ydata)` before invoking the
least-squares solver (the solver receives `ydata/mats_min` as its data and
the hardcoded `x0`), the returned `ck` equals `mats_min` times the solver's
two fitted amplitudes while `vk` is the solver's two rates unscaled; and the
default bounds put lower bound `0` on both amplitudes (entries 0 and 2) and
upper bound `0` on both rates (entries 1 and 3). -/
theorem biexp_fit_normalization (ls : LeastSquaresSolver)
    (tlist ydata ck_guess vk_guess : List ℝ) (method loss : String) :
    biexp_fit ls tlist ydata ck_guess vk_guess biexp_fit_default_bounds
        method loss =
      ((npmin ydata *
          (ls (fun x t y =>
              (x.1 * Real.exp (x.2.1 * t) + x.2.2.1 * Real.exp (x.2.2.2 * t)
                - y) ^ 2)
            (0.5, -1, 0.5, -1) biexp_fit_default_bounds loss
            (tlist, ydata.map (fun y : ℝ => y / npmin ydata))).1,
        npmin ydata *
          (ls (fun x t y =>
              (x.1 * Real.exp (x.2.1 * t) + x.2.2.1 * Real.exp (x.2.2.2 * t)
                - y) ^ 2)
            (0.5, -1, 0.5, -1) biexp_fit_default_bounds loss
            (tlist, ydata.map (fun y : ℝ => y / npmin ydata))).2.2.1),
       ((ls (fun x t y =>
              (x.1 * Real.exp (x.2.1 * t) + x.2.2.1 * Real.exp (x.2.2.2 * t)
                - y) ^ 2)
            (0.5, -1, 0.5, -1) biexp_fit_default_bounds loss
            (tlist, ydata.map (fun y : ℝ => y / npmin ydata))).2.1,
        (ls (fun x t y =>
              (x.1 * Real.exp (x.2.1 * t) + x.2.2.1 * Real.exp (x.2.2.2 * t)
                - y) ^ 2)
            (0.5, -1, 0.5, -1) biexp_fit_default_bounds loss
            (tlist, ydata.map (fun y : ℝ => y / npmin ydata))).2.2.2)) ∧
      biexp_fit_default_bounds.1.getD 0 ⊤ = 0 ∧
      biexp_fit_default_bounds.1.getD 2 ⊤ = 0 ∧
      biexp_fit_default_bounds.2.getD 1 ⊥ = 0 ∧
      biexp_fit_default_bounds.2.getD 3 ⊥ = 0 :=
  ⟨rfl, rfl, rfl, rfl, rfl⟩

/-- C10: the result of `biexp_fit` is independent of `ck_guess` and
`vk_guess`: both guesses are ignored and the solver always starts from the
hardcoded `x0 = [0.5, -1, 0.5, -1]`. -/
theorem biexp_fit_ignores_guesses (ls : LeastSquaresSolver)
    (tlist ydata g1 g2 g1' g2' : List ℝ) (bounds : List EReal × List EReal)
    (method loss : String) :
    biexp_fit ls tlist ydata g1 g2 bounds method loss =
      biexp_fit ls tlist ydata g1' g2' bounds method loss := rfl

/-- C8: for every non-callable `spectral_density`, `bath_correlation` fails
immediately with the `TypeError` message, and the result does not depend on
the integration capability (so no integration is performed before failing);
for a callable `spectral_density` it never raises this error. -/
theorem bath_correlation_callable_check (quad quad' : QuadIntegrator)
    (descr : String) (tlist params : List ℝ) (beta w_cut : ℝ) :
    bath_correlation quad (PyObj.notCallable descr) tlist params beta w_cut =
        Except.error
          "TypeError: Spectral density should be a callable function f(w, args)" ∧
      bath_correlation quad (PyObj.notCallable descr) tlist params beta w_cut =
        bath_correlation quad' (PyObj.notCallable descr) tlist params beta w_cut ∧
      ∀ f, ∃ l, bath_correlation quad (PyObj.callable f) tlist params beta w_cut =
        Except.ok l :=
  ⟨rfl, rfl, fun f => ⟨_, rfl⟩⟩

end Correlation
